import Mathlib

/-!
Verification of the xcbridge job execution and streaming subsystem.

The definitions below shallowly embed the Rust source:
* `BuildStatus`, registry operations — `src/state.rs`
* `Config.is_path_allowed` — `src/config.rs`
* request/response handlers — `src/handlers/build.rs`, `src/handlers/test.rs`
* the line-streaming process runner — `src/xcode/xcodebuild.rs`

The registry's `HashMap<String, BuildStatus>` is embedded as an association
list whose list order records insertion order; hash-map iteration order
(which Rust leaves unspecified) is passed explicitly where the source
iterates the map.  Filesystem paths are embedded as component lists, and
`Path::canonicalize` as an explicit oracle parameter.
-/

set_option maxHeartbeats 1000000

namespace Xcbridge

/-- Status of a build — `BuildStatus` in `src/state.rs`. -/
inductive BuildStatus where
  | Running (logs : List String)
  | Success (logs : List String) (artifacts : List String)
  | Failed (logs : List String) (error : String) (exit_code : Option Int)
  | Cancelled
  deriving DecidableEq, Repr

/-- `BuildStatus::is_complete` in `src/state.rs`. -/
def BuildStatus.is_complete : BuildStatus → Bool
  | .Success _ _ => true
  | .Failed _ _ _ => true
  | .Cancelled => true
  | .Running _ => false

/-- `BuildStatus::logs` in `src/state.rs` (`Cancelled` exposes no logs). -/
def BuildStatus.logs : BuildStatus → List String
  | .Running logs => logs
  | .Success logs _ => logs
  | .Failed logs _ _ => logs
  | .Cancelled => []

/-- The registry map `builds : HashMap<String, BuildStatus>` of `AppState`,
as an association list; the list order is insertion order. -/
abbrev Store := List (String × BuildStatus)

/-- `HashMap::get` / the read used by `AppState::get_build` in `src/state.rs`. -/
def get_build : Store → String → Option BuildStatus
  | [], _ => none
  | p :: l, id => if p.1 = id then some p.2 else get_build l id

/-- `HashMap::get_mut` followed by an in-place update: rewrites the (unique)
entry for `id`, if present, by `g`.  Keys being unique in a `HashMap`, only
the first matching entry is touched. -/
def updateStatus : Store → String → (BuildStatus → BuildStatus) → Store
  | [], _, _ => []
  | p :: l, id, g => if p.1 = id then (p.1, g p.2) :: l else p :: updateStatus l id g

/-- `AppState::create_build` in `src/state.rs`: `HashMap::insert` of a fresh
`Running` record (replacing any entry already under that key). -/
def create_build (builds : Store) (id : String) : Store :=
  if (get_build builds id).isSome then
    updateStatus builds id (fun _ => .Running [])
  else
    builds ++ [(id, .Running [])]

/-- `AppState::append_build_log` in `src/state.rs`: push the line iff the
record exists and is `Running`. -/
def append_build_log (builds : Store) (id : String) (line : String) : Store :=
  updateStatus builds id fun s =>
    match s with
    | .Running logs => .Running (logs ++ [line])
    | s => s

/-- `AppState::complete_build` in `src/state.rs`. -/
def complete_build (builds : Store) (id : String) (artifacts : List String) : Store :=
  updateStatus builds id fun s =>
    match s with
    | .Running logs => .Success logs artifacts
    | s => s

/-- `AppState::fail_build` in `src/state.rs`. -/
def fail_build (builds : Store) (id : String) (error : String)
    (exit_code : Option Int) : Store :=
  updateStatus builds id fun s =>
    match s with
    | .Running logs => .Failed logs error exit_code
    | s => s

/-- `AppState::cancel_build` in `src/state.rs`: replaces a `Running` record
with `Cancelled` and returns `true`; otherwise returns `false`. -/
def cancel_build (builds : Store) (id : String) : Store × Bool :=
  match get_build builds id with
  | some (.Running _) => (updateStatus builds id fun _ => .Cancelled, true)
  | _ => (builds, false)

/-- A sequence of `append_build_log` calls for one id, in call order. -/
def appendAll (builds : Store) (id : String) (lines : List String) : Store :=
  lines.foldl (fun b line => append_build_log b id line) builds

/-! ### Registry lemmas -/

theorem get_build_updateStatus_self (builds : Store) (id : String)
    (g : BuildStatus → BuildStatus) :
    get_build (updateStatus builds id g) id = (get_build builds id).map g := by
  induction builds with
  | nil => rfl
  | cons p l ih =>
    by_cases h : p.1 = id
    · simp [updateStatus, get_build, h]
    · simp [updateStatus, get_build, h, ih]

theorem updateStatus_id_of_fix (builds : Store) (id : String)
    (g : BuildStatus → BuildStatus)
    (h : ∀ s, get_build builds id = some s → g s = s) :
    updateStatus builds id g = builds := by
  induction builds with
  | nil => rfl
  | cons p l ih =>
    by_cases hp : p.1 = id
    · have := h p.2 (by simp [get_build, hp])
      simp only [updateStatus, if_pos hp, this, Prod.mk.eta]
    · simp only [updateStatus, if_neg hp]
      rw [ih]
      intro s hs
      apply h
      simpa [get_build, hp] using hs

theorem append_build_log_of_running (builds : Store) (id : String)
    (L : List String) (line : String)
    (h : get_build builds id = some (.Running L)) :
    get_build (append_build_log builds id line) id
      = some (.Running (L ++ [line])) := by
  rw [append_build_log, get_build_updateStatus_self, h]
  rfl

theorem append_build_log_of_terminal (builds : Store) (id : String)
    (t : BuildStatus) (line : String)
    (ht : t.is_complete = true) (h : get_build builds id = some t) :
    append_build_log builds id line = builds := by
  apply updateStatus_id_of_fix
  intro s hs
  rw [h] at hs
  cases hs
  cases t with
  | Running logs => simp [BuildStatus.is_complete] at ht
  | Success logs artifacts => rfl
  | Failed logs error exit_code => rfl
  | Cancelled => rfl

theorem appendAll_of_running (id : String) (lines : List String) :
    ∀ (builds : Store) (L : List String),
      get_build builds id = some (.Running L) →
      get_build (appendAll builds id lines) id = some (.Running (L ++ lines)) := by
  induction lines with
  | nil => intro builds L h; simpa [appendAll] using h
  | cons line rest ih =>
    intro builds L h
    have hstep := append_build_log_of_running builds id L line h
    have := ih (append_build_log builds id line) (L ++ [line]) hstep
    simpa [appendAll, List.foldl_cons, List.append_assoc] using this

theorem appendAll_of_terminal (builds : Store) (id : String)
    (t : BuildStatus) (lines : List String)
    (ht : t.is_complete = true) (h : get_build builds id = some t) :
    appendAll builds id lines = builds := by
  induction lines with
  | nil => rfl
  | cons line rest ih =>
    have hstep := append_build_log_of_terminal builds id t line ht h
    simp only [appendAll, List.foldl_cons] at ih ⊢
    rw [hstep]
    exact ih

/-! ### Claims about the registry -/

/-- **C1.** While a record is `Running`, every `append_build_log` call appends
its line, and `get_build` returns exactly the lines appended while `Running`,
in call order; once the record is in any terminal state, `append_build_log`
leaves the whole store (hence the final record's logs) unchanged. -/
theorem c1_append_log_exact (builds : Store) (id : String) (L lines : List String)
    (h : get_build builds id = some (.Running L)) :
    get_build (appendAll builds id lines) id = some (.Running (L ++ lines))
    ∧ (∀ (builds2 : Store) (t : BuildStatus) (lines2 : List String),
        t.is_complete = true → get_build builds2 id = some t →
        appendAll builds2 id lines2 = builds2) := by
  refine ⟨appendAll_of_running id lines builds L h, ?_⟩
  intro builds2 t lines2 ht h2
  exact appendAll_of_terminal builds2 id t lines2 ht h2

theorem c1_append_log_exact_witness :
    get_build (appendAll [("a", BuildStatus.Running [])] "a" ["x", "y"]) "a"
      = some (BuildStatus.Running ["x", "y"]) :=
  (c1_append_log_exact [("a", BuildStatus.Running [])] "a" [] ["x", "y"] rfl).1

/-- **C2.** When the record for `id` is already terminal, `complete_build`,
`fail_build` and `cancel_build` are all no-ops: the store is returned
unchanged (and `cancel_build` reports `false`). -/
theorem c2_terminal_ops_noop (builds : Store) (id : String) (t : BuildStatus)
    (artifacts : List String) (error : String) (exit_code : Option Int)
    (ht : t.is_complete = true) (h : get_build builds id = some t) :
    complete_build builds id artifacts = builds
    ∧ fail_build builds id error exit_code = builds
    ∧ cancel_build builds id = (builds, false) := by
  have hfix : ∀ (f : List String → BuildStatus),
      (∀ s, get_build builds id = some s →
        (match s with | .Running logs => f logs | s => s) = s) → True := fun _ _ => trivial
  refine ⟨?_, ?_, ?_⟩
  · apply updateStatus_id_of_fix
    intro s hs
    rw [h] at hs; cases hs
    cases t with
    | Running logs => simp [BuildStatus.is_complete] at ht
    | Success logs artifacts => rfl
    | Failed logs error exit_code => rfl
    | Cancelled => rfl
  · apply updateStatus_id_of_fix
    intro s hs
    rw [h] at hs; cases hs
    cases t with
    | Running logs => simp [BuildStatus.is_complete] at ht
    | Success logs artifacts => rfl
    | Failed logs error exit_code => rfl
    | Cancelled => rfl
  · rw [cancel_build, h]
    cases t with
    | Running logs => simp [BuildStatus.is_complete] at ht
    | Success logs artifacts => rfl
    | Failed logs error exit_code => rfl
    | Cancelled => rfl

theorem c2_terminal_ops_noop_witness :
    complete_build [("a", BuildStatus.Cancelled)] "a" ["art"] = [("a", BuildStatus.Cancelled)]
    ∧ fail_build [("a", BuildStatus.Cancelled)] "a" "e" (some 1) = [("a", BuildStatus.Cancelled)]
    ∧ cancel_build [("a", BuildStatus.Cancelled)] "a" = ([("a", BuildStatus.Cancelled)], false) :=
  c2_terminal_ops_noop [("a", BuildStatus.Cancelled)] "a" BuildStatus.Cancelled
    ["art"] "e" (some 1) rfl rfl

/-! ### Paths, configuration and the allowlist (`src/config.rs`) -/

/-- A filesystem path as its list of components; `Path::starts_with` in Rust
compares component-wise, which is list-prefix here. -/
abbrev FsPath := List String

/-- The `Config` CLI structure in `src/config.rs`. -/
structure Config where
  port : Nat
  host : String
  api_key : Option String
  log_level : String
  allowed_paths : Option (List FsPath)
  deriving DecidableEq, Repr

/-- One disjunct of `Config::is_path_allowed`: the requested path's canonical
form starts with the canonical form of `allowed_path`; `false` whenever either
canonicalization fails.  `canon` is the `Path::canonicalize` oracle. -/
def pathAllowedBy (canon : FsPath → Option FsPath) (path allowed_path : FsPath) : Bool :=
  match canon path, canon allowed_path with
  | some c, some allowed_canonical => allowed_canonical.isPrefixOf c
  | _, _ => false

/-- `Config::is_path_allowed` in `src/config.rs`.  The source computes
`path.canonicalize().ok()` once before the `any`; inlining it into each
disjunct is observationally identical since `canon` is a function. -/
def Config.is_path_allowed (cfg : Config) (canon : FsPath → Option FsPath)
    (path : FsPath) : Bool :=
  match cfg.allowed_paths with
  | some allowed => allowed.any (pathAllowedBy canon path)
  | none => true

/-- The error taxonomy `XcbridgeError` in `src/error.rs`. -/
inductive XcbridgeError where
  | XcodeNotFound
  | BuildFailed (m : String)
  | TestFailed (m : String)
  | SimulatorNotFound (m : String)
  | SimulatorError (m : String)
  | DeviceNotFound (m : String)
  | DeviceError (m : String)
  | PathNotAllowed (p : FsPath)
  | CommandFailed (m : String)
  | InvalidRequest (m : String)
  | BuildNotFound (id : String)
  | Internal (m : String)
  | Unauthorized
  deriving DecidableEq, Repr

/-- The `thiserror` display strings of `XcbridgeError` (`e.to_string()`). -/
def errMessage : XcbridgeError → String
  | .XcodeNotFound => "Xcode not found. Please install Xcode and run xcode-select."
  | .BuildFailed m => "Build failed: " ++ m
  | .TestFailed m => "Test failed: " ++ m
  | .SimulatorNotFound m => "Simulator not found: " ++ m
  | .SimulatorError m => "Simulator error: " ++ m
  | .DeviceNotFound m => "Device not found: " ++ m
  | .DeviceError m => "Device error: " ++ m
  | .PathNotAllowed p => "Path not allowed: " ++ String.intercalate "/" p
  | .CommandFailed m => "Command execution failed: " ++ m
  | .InvalidRequest m => "Invalid request: " ++ m
  | .BuildNotFound id => "Build not found: " ++ id
  | .Internal m => "Internal error: " ++ m
  | .Unauthorized => "Unauthorized"

/-! ### Requests, responses and the build handlers (`src/handlers/build.rs`) -/

/-- `BuildRequest` in `src/models/requests.rs` (paths as component lists). -/
structure BuildRequest where
  project : Option FsPath
  workspace : Option FsPath
  scheme : String
  configuration : String
  destination : Option String
  derived_data_path : Option String
  extra_args : List String
  deriving DecidableEq, Repr

/-- `BuildStartedResponse` in `src/models/responses.rs`. -/
structure BuildStartedResponse where
  build_id : String
  status : String
  logs_url : String
  deriving DecidableEq, Repr

/-- `BuildStatusResponse` in `src/models/responses.rs`. -/
structure BuildStatusResponse where
  build_id : String
  status : String
  exit_code : Option Int
  artifacts : Option (List String)
  error : Option String
  logs : List String
  deriving DecidableEq, Repr

/-- The synchronous part of `start_build` in `src/handlers/build.rs`: validate
that a project or workspace path exists (`project.or(workspace)`), enforce the
allowlist, then register the fresh id as `Running` and reply.  `freshId`
stands for the generated UUID; the spawned background build task is modelled
separately (`run_build_finalize`). -/
def start_build (cfg : Config) (canon : FsPath → Option FsPath) (freshId : String)
    (builds : Store) (req : BuildRequest) :
    Store × Except XcbridgeError BuildStartedResponse :=
  match req.project.or req.workspace with
  | none => (builds, .error (.InvalidRequest "Either project or workspace must be specified"))
  | some project_path =>
    if cfg.is_path_allowed canon project_path then
      (create_build builds freshId,
       .ok { build_id := freshId, status := "running",
             logs_url := "/build/" ++ freshId ++ "/logs" })
    else
      (builds, .error (.PathNotAllowed project_path))

/-- `get_build` (the `GET /build/:id` handler) in `src/handlers/build.rs`. -/
def get_build_handler (builds : Store) (id : String) :
    Except XcbridgeError BuildStatusResponse :=
  match get_build builds id with
  | none => .error (.BuildNotFound id)
  | some (.Running logs) =>
      .ok { build_id := id, status := "running", exit_code := none,
            artifacts := none, error := none, logs := logs }
  | some (.Success logs artifacts) =>
      .ok { build_id := id, status := "success", exit_code := some 0,
            artifacts := some artifacts, error := none, logs := logs }
  | some (.Failed logs error exit_code) =>
      .ok { build_id := id, status := "failed", exit_code := exit_code,
            artifacts := none, error := some error, logs := logs }
  | some .Cancelled =>
      .ok { build_id := id, status := "cancelled", exit_code := none,
            artifacts := none, error := none, logs := [] }

/-- `cancel_build` (the `DELETE /build/:id` handler) in `src/handlers/build.rs`. -/
def cancel_build_handler (builds : Store) (id : String) :
    Store × Except XcbridgeError BuildStatusResponse :=
  let r := cancel_build builds id
  if r.2 then
    (r.1, .ok { build_id := id, status := "cancelled", exit_code := none,
                artifacts := none, error := none, logs := [] })
  else
    (r.1, .error (.BuildNotFound id))

/-- Rust `str::contains(sub)`: `splitOn` yields more than one piece iff the
substring occurs. -/
def containsStr (s sub : String) : Bool := decide (1 < (s.splitOn sub).length)

/-- The reverse scan of `run_build` in `src/handlers/build.rs` for the most
recent log line containing the failure marker. -/
def errorSummary (logs : List String) : String :=
  match logs.reverse.find? (fun l => containsStr l "error:") with
  | some l => l
  | none => "Build failed"

/-- `BuildOutput` in `src/xcode/xcodebuild.rs`. -/
structure BuildOutput where
  success : Bool
  exit_code : Int
  logs : List String
  build_dir : Option String
  deriving DecidableEq, Repr

/-- The finalization step of `run_build` in `src/handlers/build.rs`: turn the
runner's result into the terminal registry transition. -/
def run_build_finalize (builds : Store) (id : String)
    (result : Except XcbridgeError BuildOutput) : Store :=
  match result with
  | .ok out =>
    if out.success then
      complete_build builds id (match out.build_dir with | some d => [d] | none => [])
    else
      fail_build builds id (errorSummary out.logs) (some out.exit_code)
  | .error e => fail_build builds id (errMessage e) none

/-! ### Claims C5–C8 and C10 -/

theorem pathAllowedBy_iff (canon : FsPath → Option FsPath) (path root : FsPath) :
    pathAllowedBy canon path root = true
      ↔ ∃ c ac, canon path = some c ∧ canon root = some ac ∧ ac <+: c := by
  cases hcp : canon path with
  | none => simp [pathAllowedBy, hcp]
  | some c =>
    cases har : canon root with
    | none => simp [pathAllowedBy, hcp, har]
    | some ac => simp [pathAllowedBy, hcp, har, List.isPrefixOf_iff_prefix]

/-- **C5.** With an allowlist configured, a path is accepted iff its canonical
form is a (component-wise) descendant of the canonical form of some allowed
root — so a path strictly inside an allowed root is accepted, and one outside
all roots, or matching a root only textually (its canonical form not below the
root's canonical form), is rejected; with no allowlist every path is accepted. -/
theorem c5_path_allowlist (canon : FsPath → Option FsPath) (allowed : List FsPath)
    (path : FsPath) (cfgA cfgN : Config)
    (hA : cfgA.allowed_paths = some allowed) (hN : cfgN.allowed_paths = none) :
    (cfgA.is_path_allowed canon path = true
      ↔ ∃ root ∈ allowed, ∃ c ac,
          canon path = some c ∧ canon root = some ac ∧ ac <+: c)
    ∧ cfgN.is_path_allowed canon path = true := by
  constructor
  · rw [Config.is_path_allowed, hA]
    rw [List.any_eq_true]
    constructor
    · rintro ⟨root, hmem, hb⟩
      exact ⟨root, hmem, (pathAllowedBy_iff canon path root).mp hb⟩
    · rintro ⟨root, hmem, hex⟩
      exact ⟨root, hmem, (pathAllowedBy_iff canon path root).mpr hex⟩
  · rw [Config.is_path_allowed, hN]

theorem c5_path_allowlist_witness :
    Config.is_path_allowed ⟨9090, "h", none, "info", some [["root"]]⟩
      (fun p => some p) ["root", "proj"] = true :=
  ((c5_path_allowlist (fun p => some p) [["root"]] ["root", "proj"]
      ⟨9090, "h", none, "info", some [["root"]]⟩
      ⟨9090, "h", none, "info", none⟩ rfl rfl).1).mpr
    ⟨["root"], by simp, ["root", "proj"], ["root"], rfl, rfl, ⟨["proj"], rfl⟩⟩

/-- **C6 counterexample.** A request supplying *both* a project and a
workspace path is accepted by `start_build` (the project path wins), contrary
to the claim that such a request is not accepted: the handler returns the
started response and a `Running` record is created. -/
theorem c6_both_given_accepted :
    start_build ⟨9090, "h", none, "info", none⟩ (fun _ => none) "id1" []
        ⟨some ["p"], some ["w"], "App", "Debug", none, none, []⟩
      = ([("id1", BuildStatus.Running [])],
         .ok ⟨"id1", "running", "/build/id1/logs"⟩) := by
  rfl

/-- **C6 (amended).** `start_build` requires *at least one* of the project /
workspace paths: a request supplying neither is rejected with
`InvalidRequest` before any record is created, and a request supplying a
project path (whether or not a workspace is also supplied) that passes the
allowlist is accepted, registering the fresh id as `Running`. -/
theorem c6_at_least_one_path_required (cfg : Config)
    (canon : FsPath → Option FsPath) (freshId : String)
    (builds : Store) (req : BuildRequest) :
    (req.project = none → req.workspace = none →
      start_build cfg canon freshId builds req
        = (builds, .error (.InvalidRequest "Either project or workspace must be specified")))
    ∧ (∀ p, req.project = some p → cfg.is_path_allowed canon p = true →
        start_build cfg canon freshId builds req
          = (create_build builds freshId,
             .ok ⟨freshId, "running", "/build/" ++ freshId ++ "/logs"⟩)) := by
  constructor
  · intro hp hw
    rw [start_build, hp, hw]
    rfl
  · intro p hp hallow
    rw [start_build, hp]
    simp only [Option.or, hallow, if_true]

theorem c6_at_least_one_path_required_witness :
    start_build ⟨9090, "h", none, "info", none⟩ (fun _ => none) "id1" []
        ⟨none, none, "App", "Debug", none, none, []⟩
      = ([], .error (.InvalidRequest "Either project or workspace must be specified")) :=
  (c6_at_least_one_path_required ⟨9090, "h", none, "info", none⟩ (fun _ => none)
      "id1" [] ⟨none, none, "App", "Debug", none, none, []⟩).1 rfl rfl

/-- **C7.** Whenever `start_build` fails, the error is `InvalidRequest` or
`PathNotAllowed`, and the registry is returned unchanged — no record was
created for any id. -/
theorem c7_start_errors_create_nothing (cfg : Config)
    (canon : FsPath → Option FsPath) (freshId : String)
    (builds : Store) (req : BuildRequest) (e : XcbridgeError)
    (h : (start_build cfg canon freshId builds req).2 = .error e) :
    (start_build cfg canon freshId builds req).1 = builds
    ∧ ((∃ m, e = .InvalidRequest m) ∨ (∃ p, e = .PathNotAllowed p)) := by
  rw [start_build] at h ⊢
  cases hor : req.project.or req.workspace with
  | none =>
    rw [hor] at h
    dsimp only at h ⊢
    cases h
    exact ⟨rfl, Or.inl ⟨_, rfl⟩⟩
  | some p =>
    rw [hor] at h
    dsimp only at h ⊢
    by_cases hallow : cfg.is_path_allowed canon p = true
    · rw [if_pos hallow] at h
      simp at h
    · rw [if_neg hallow] at h ⊢
      dsimp only at h ⊢
      cases h
      exact ⟨rfl, Or.inr ⟨p, rfl⟩⟩

theorem c7_start_errors_create_nothing_witness :
    (start_build ⟨9090, "h", none, "info", none⟩ (fun _ => none) "id1"
        [("old", BuildStatus.Cancelled)]
        ⟨none, none, "App", "Debug", none, none, []⟩).1
      = [("old", BuildStatus.Cancelled)] :=
  (c7_start_errors_create_nothing ⟨9090, "h", none, "info", none⟩ (fun _ => none)
      "id1" [("old", BuildStatus.Cancelled)]
      ⟨none, none, "App", "Debug", none, none, []⟩
      (.InvalidRequest "Either project or workspace must be specified") rfl).1

/-- **C8.** `cancel_build` returns `true` exactly when a record exists and is
`Running`, in which case the record becomes `Cancelled`; otherwise it returns
`false` leaving the store unchanged, and the cancellation handler surfaces the
`false` case as `BuildNotFound` while the `true` case yields the cancelled
response. -/
theorem c8_cancel_iff_running (builds : Store) (id : String) :
    ((cancel_build builds id).2 = true
      ↔ ∃ L, get_build builds id = some (.Running L))
    ∧ (∀ L, get_build builds id = some (.Running L) →
        get_build (cancel_build builds id).1 id = some .Cancelled)
    ∧ ((cancel_build builds id).2 = false → (cancel_build builds id).1 = builds)
    ∧ ((cancel_build builds id).2 = false →
        cancel_build_handler builds id = (builds, .error (.BuildNotFound id)))
    ∧ ((cancel_build builds id).2 = true →
        (cancel_build_handler builds id).2
          = .ok ⟨id, "cancelled", none, none, none, []⟩) := by
  have hmain : ∀ s, get_build builds id = some s → True := fun _ _ => trivial
  refine ⟨?_, ?_, ?_, ?_, ?_⟩
  · rw [cancel_build]
    cases hg : get_build builds id with
    | none => simp
    | some s =>
      cases s with
      | Running L => simp
      | Success logs artifacts => simp
      | Failed logs error exit_code => simp
      | Cancelled => simp
  · intro L hL
    rw [cancel_build, hL]
    simp only
    rw [get_build_updateStatus_self, hL]
    rfl
  · intro hfalse
    rw [cancel_build] at hfalse ⊢
    cases hg : get_build builds id with
    | none => rfl
    | some s =>
      cases s with
      | Running L => rw [hg] at hfalse; simp at hfalse
      | Success logs artifacts => rfl
      | Failed logs error exit_code => rfl
      | Cancelled => rfl
  · intro hfalse
    have hst : (cancel_build builds id).1 = builds := by
      rw [cancel_build] at hfalse ⊢
      cases hg : get_build builds id with
      | none => rfl
      | some s =>
        cases s with
        | Running L => rw [hg] at hfalse; simp at hfalse
        | Success logs artifacts => rfl
        | Failed logs error exit_code => rfl
        | Cancelled => rfl
    rw [cancel_build_handler]
    simp only [hfalse, if_false, hst]
    rfl
  · intro htrue
    rw [cancel_build_handler]
    simp only [htrue, if_true]

theorem c8_cancel_iff_running_witness :
    (cancel_build_handler [("a", BuildStatus.Running ["x"])] "a").2
      = .ok ⟨"a", "cancelled", none, none, none, []⟩ :=
  (c8_cancel_iff_running [("a", BuildStatus.Running ["x"])] "a").2.2.2.2 rfl

/-- **C10.** A `Success` record is reported by the status handler with exit
code exactly `0`, synthesized as a constant at query time; the record itself
carries only logs and artifacts, and the finalization step discards the
runner's observed exit code on success, so no exit status is retained. -/
theorem c10_success_exit_code_constant (builds : Store) (id : String)
    (logs artifacts : List String)
    (h : get_build builds id = some (.Success logs artifacts)) :
    get_build_handler builds id
      = .ok ⟨id, "success", some 0, some artifacts, none, logs⟩
    ∧ (∀ (builds2 : Store) (id2 : String) (logs2 : List String)
        (dir : Option String) (c c2 : Int),
        run_build_finalize builds2 id2 (.ok ⟨true, c, logs2, dir⟩)
          = run_build_finalize builds2 id2 (.ok ⟨true, c2, logs2, dir⟩)) := by
  constructor
  · rw [get_build_handler, h]
  · intro builds2 id2 logs2 dir c c2
    rfl

theorem c10_success_exit_code_constant_witness :
    get_build_handler [("a", BuildStatus.Success ["l1"] ["art"])] "a"
      = .ok ⟨"a", "success", some 0, some ["art"], none, ["l1"]⟩ :=
  (c10_success_exit_code_constant [("a", BuildStatus.Success ["l1"] ["art"])] "a"
      ["l1"] ["art"] rfl).1

/-! ### The log observer protocol (`build_logs` in `src/handlers/build.rs`,
`test_logs` in `src/handlers/test.rs`) -/

/-- An SSE event emitted by the streaming loop: a data-only line event, or the
final `complete` event carrying the terminal status name. -/
inductive SseEvent where
  | line (data : String)
  | completeEv (status : String)
  deriving DecidableEq, Repr

/-- The status-name match inside the streaming loop. -/
def statusName : BuildStatus → String
  | .Success _ _ => "success"
  | .Failed _ _ _ => "failed"
  | .Cancelled => "cancelled"
  | .Running _ => "unknown"

/-- The polling loop body of `build_logs`: `idx` is the `last_index` cursor
and the list holds the registry snapshot observed on each polling cycle (the
value of `state.get_build(&id)` at that cycle).  Each cycle emits the log
lines beyond the cursor, advances the cursor to the snapshot's log length,
emits the completion event and stops if the snapshot is terminal, and stops
silently if the record has disappeared. -/
def obsRun : Nat → List (Option BuildStatus) → List SseEvent
  | _, [] => []
  | _, none :: _ => []
  | idx, some b :: rest =>
    let evs := (b.logs.drop idx).map SseEvent.line
    if b.is_complete then evs ++ [SseEvent.completeEv (statusName b)]
    else evs ++ obsRun b.logs.length rest

/-- The `build_logs` handler: a `BuildNotFound` error (no stream, zero
events) when the id is unknown at subscribe time, otherwise the polling loop
started with cursor `0` over the snapshots the loop will observe. -/
def build_logs (builds : Store) (id : String)
    (snapshots : List (Option BuildStatus)) :
    Except XcbridgeError (List SseEvent) :=
  match get_build builds id with
  | none => .error (.BuildNotFound id)
  | some _ => .ok (obsRun 0 snapshots)

/-- Last element of a list, with a default — the cursor value after a run of
cycles. -/
def lastD {α : Type _} : List α → α → α
  | [], d => d
  | a :: l, _ => lastD l a

theorem drop_telescope {α : Type _} (D M L : List α)
    (h1 : D <+: M) (h2 : M <+: L) :
    M.drop D.length ++ L.drop M.length = L.drop D.length := by
  obtain ⟨u, rfl⟩ := h2
  rw [List.drop_left, List.drop_append_of_le_length h1.length_le]

theorem chain_lastD {α : Type _} :
    ∀ (l : List (List α)) (a : List α),
      List.Chain' (· <+: ·) (a :: l) → a <+: lastD l a := by
  intro l
  induction l with
  | nil => intro a _; exact ⟨[], List.append_nil a⟩
  | cons b l2 ih =>
    intro a h
    rw [List.chain'_cons] at h
    exact h.1.trans (ih b h.2)

theorem obsRun_telescope (t : BuildStatus) (ht : t.is_complete = true) :
    ∀ (ss : List BuildStatus) (D : List String),
      (∀ s ∈ ss, s.is_complete = false) →
      List.Chain' (· <+: ·) (D :: ss.map BuildStatus.logs) →
      obsRun D.length (ss.map some ++ [some t])
        = ((lastD (ss.map BuildStatus.logs) D).drop D.length
            ++ t.logs.drop (lastD (ss.map BuildStatus.logs) D).length).map SseEvent.line
          ++ [SseEvent.completeEv (statusName t)] := by
  intro ss
  induction ss with
  | nil =>
    intro D _ _
    simp only [List.map_nil, List.nil_append, lastD, obsRun, ht, if_true,
      List.drop_length]
  | cons s ss2 ih =>
    intro D hrun hchain
    have hs : s.is_complete = false := hrun s (by simp)
    have hrun2 : ∀ x ∈ ss2, x.is_complete = false := fun x hx => hrun x (by simp [hx])
    rw [List.map_cons, List.chain'_cons] at hchain
    obtain ⟨hDs, hchain2⟩ := hchain
    have hsX : s.logs <+: lastD (ss2.map BuildStatus.logs) s.logs :=
      chain_lastD (ss2.map BuildStatus.logs) s.logs hchain2
    have hstep := ih s.logs hrun2 hchain2
    simp only [List.map_cons, List.cons_append, obsRun, hs, Bool.false_eq_true,
      if_false, lastD, List.append_eq]
    rw [hstep,
      ← drop_telescope D s.logs (lastD (ss2.map BuildStatus.logs) s.logs) hDs hsX]
    simp [List.map_append, List.append_assoc]

/-- **C3.** Over any run in which the registry snapshots seen by the polling
loop grow by appending (each cycle's logs extend the previous cycle's) and
finally turn terminal, the loop delivers the job's log lines exactly once and
in order — the emitted events are exactly the final log's lines, however the
lines were batched between cycles — followed by exactly one completion event
carrying the terminal status name, and the stream ends; after a cancellation
(whose record drops its logs) the lines already delivered are never repeated
and the single completion event says `cancelled`; and for an id unknown at
subscribe time the handler emits no events at all. -/
theorem c3_observer_protocol (ss : List BuildStatus) (t : BuildStatus)
    (hrun : ∀ s ∈ ss, s.is_complete = false)
    (hchain : List.Chain' (fun a b => BuildStatus.logs a <+: BuildStatus.logs b) ss)
    (ht : t.is_complete = true) :
    (lastD (ss.map BuildStatus.logs) [] <+: t.logs →
      obsRun 0 (ss.map some ++ [some t])
        = t.logs.map SseEvent.line ++ [SseEvent.completeEv (statusName t)])
    ∧ (t = .Cancelled →
      obsRun 0 (ss.map some ++ [some t])
        = (lastD (ss.map BuildStatus.logs) []).map SseEvent.line
          ++ [SseEvent.completeEv "cancelled"])
    ∧ (∀ (builds : Store) (id : String) (snaps : List (Option BuildStatus)),
        get_build builds id = none →
        build_logs builds id snaps = .error (.BuildNotFound id)) := by
  have hchain0 : List.Chain' (· <+: ·) (([] : List String) :: ss.map BuildStatus.logs) := by
    rw [List.chain'_cons']
    exact ⟨fun y _ => ⟨y, rfl⟩, (List.chain'_map BuildStatus.logs).mpr hchain⟩
  have hmain := obsRun_telescope t ht ss [] hrun hchain0
  simp only [List.length_nil, List.drop_zero] at hmain
  refine ⟨?_, ?_, ?_⟩
  · intro hlast
    rw [hmain]
    obtain ⟨u, hu⟩ := hlast
    rw [← hu, List.drop_left]
  · intro hcan
    subst hcan
    rw [hmain]
    simp [BuildStatus.logs, statusName]
  · intro builds id snaps hnone
    rw [build_logs, hnone]

theorem c3_observer_protocol_witness :
    obsRun 0 [some (BuildStatus.Running ["a"]), some (BuildStatus.Success ["a", "b"] [])]
      = [SseEvent.line "a", SseEvent.line "b", SseEvent.completeEv "success"] := by
  have h := (c3_observer_protocol [BuildStatus.Running ["a"]]
      (BuildStatus.Success ["a", "b"] [])
      (by intro s hs; simp at hs; rw [hs]; rfl)
      (List.chain'_singleton _) rfl).1 ⟨["b"], rfl⟩
  simpa using h

/-! ### Periodic reclamation (`AppState::cleanup_old_builds` in `src/state.rs`)

The source first collects the ids of completed builds by iterating the
`HashMap` — an order Rust leaves unspecified — and then removes the first
`completed.len() - max_completed` of them.  The iteration sequence is passed
here as `iter`, constrained in the theorems to be a permutation of the store's
entries, exactly what `HashMap` iteration guarantees. -/

/-- `AppState::cleanup_old_builds` in `src/state.rs`, with `iter` the
hash-map iteration sequence. -/
def cleanup_old_builds (iter : Store) (builds : Store) (max_completed : Nat) : Store :=
  let completed := (iter.filter fun p => p.2.is_complete).map Prod.fst
  let remove_count := completed.length - max_completed
  if remove_count > 0 then
    builds.filter fun p => decide (p.1 ∉ completed.take remove_count)
  else
    builds

theorem get_build_mem (builds : Store) (id : String) (v : BuildStatus)
    (h : get_build builds id = some v) : (id, v) ∈ builds := by
  induction builds with
  | nil => cases h
  | cons p l ih =>
    rw [get_build] at h
    by_cases hp : p.1 = id
    · rw [if_pos hp] at h
      cases h
      rw [← hp]
      simp
    · rw [if_neg hp] at h
      exact List.mem_cons_of_mem p (ih h)

theorem keys_nodup_val_eq (builds : Store)
    (hnd : (builds.map Prod.fst).Nodup) (id : String) (a b : BuildStatus)
    (ha : (id, a) ∈ builds) (hb : (id, b) ∈ builds) : a = b := by
  induction builds with
  | nil => cases ha
  | cons p l ih =>
    rw [List.map_cons, List.nodup_cons] at hnd
    cases ha with
    | head =>
      cases hb with
      | head => rfl
      | tail _ hbl =>
        exact absurd (List.mem_map_of_mem Prod.fst hbl) hnd.1
    | tail _ hal =>
      cases hb with
      | head => exact absurd (List.mem_map_of_mem Prod.fst hal) hnd.1
      | tail _ hbl => exact ih hnd.2 hal hbl

theorem get_build_filter (builds : Store) (id : String) (v : BuildStatus)
    (q : String × BuildStatus → Bool)
    (h : get_build builds id = some v) (hq : q (id, v) = true) :
    get_build (builds.filter q) id = some v := by
  induction builds with
  | nil => cases h
  | cons p l ih =>
    rw [get_build] at h
    by_cases hp : p.1 = id
    · rw [if_pos hp] at h
      cases h
      have hqp : q p = true := by
        rw [← Prod.mk.eta (p := p), hp] at hq ⊢
        exact hq
      rw [List.filter_cons, if_pos hqp, get_build, if_pos hp]
    · rw [if_neg hp] at h
      rw [List.filter_cons]
      by_cases hqp : q p = true
      · rw [if_pos hqp, get_build, if_neg hp]
        exact ih h
      · rw [if_neg hqp]
        exact ih h

theorem filter_not_mem_take {α β : Type _} [DecidableEq β] (f : α → β) :
    ∀ (L : List α) (k : Nat), (L.map f).Nodup →
      L.filter (fun x => decide (f x ∉ (L.map f).take k)) = L.drop k := by
  intro L
  induction L with
  | nil => intro k _; simp
  | cons x L2 ih =>
    intro k hnd
    rw [List.map_cons, List.nodup_cons] at hnd
    obtain ⟨hx, hnd2⟩ := hnd
    cases k with
    | zero =>
      simp only [List.take_zero, List.drop_zero]
      simp
    | succ k2 =>
      rw [List.map_cons, List.take_succ_cons, List.filter_cons]
      have hhead : (decide (f x ∉ f x :: (L2.map f).take k2)) = false := by simp
      rw [hhead]
      simp only [Bool.false_eq_true, if_false, List.drop_succ_cons]
      have hcg : L2.filter (fun y => decide (f y ∉ f x :: (L2.map f).take k2))
          = L2.filter (fun y => decide (f y ∉ (L2.map f).take k2)) := by
        apply List.filter_congr
        intro y hy
        have hne : f y ≠ f x := by
          intro he
          exact hx (he ▸ List.mem_map_of_mem f hy)
        simp [List.mem_cons, hne]
      rw [hcg, ih k2 hnd2]

/-- **C4 counterexample.** With records inserted in order `"a"` then `"b"`
(both terminal) and the legal hash-map iteration order `["b", "a"]`,
`cleanup_old_builds` with retention bound 1 evicts `"b"` — the *newest*
record — and keeps `"a"`, so eviction is not oldest-first by insertion
order. -/
theorem c4_eviction_not_insertion_order :
    List.Perm
      ([("b", BuildStatus.Success [] []), ("a", BuildStatus.Success [] [])] : Store)
      [("a", BuildStatus.Success [] []), ("b", BuildStatus.Success [] [])]
    ∧ cleanup_old_builds
        [("b", BuildStatus.Success [] []), ("a", BuildStatus.Success [] [])]
        [("a", BuildStatus.Success [] []), ("b", BuildStatus.Success [] [])] 1
      = [("a", BuildStatus.Success [] [])] := by
  constructor
  · exact List.Perm.swap _ _ _
  · rfl

/-- **C4 (amended).** For every store, every retention bound `n`, and every
hash-map iteration order (any permutation of the store's entries, the keys
being distinct), `cleanup_old_builds` never evicts a `Running` record and
leaves at most `n` terminal records; the evicted terminal records are chosen
by the unspecified iteration order, not oldest-first by insertion order. -/
theorem c4_reclaim_amended (iter builds : Store) (n : Nat)
    (hperm : iter.Perm builds) (hnd : (builds.map Prod.fst).Nodup) :
    (∀ id L, get_build builds id = some (.Running L) →
      get_build (cleanup_old_builds iter builds n) id = some (.Running L))
    ∧ List.countP (fun p => p.2.is_complete) (cleanup_old_builds iter builds n) ≤ n := by
  have hndi : (iter.map Prod.fst).Nodup := ((hperm.map Prod.fst).nodup_iff).mpr hnd
  have hndcE : (((iter.filter fun p => p.2.is_complete).map Prod.fst)).Nodup :=
    ((List.filter_sublist iter).map Prod.fst).nodup hndi
  constructor
  · intro id L h
    simp only [cleanup_old_builds]
    split
    · apply get_build_filter builds id _ _ h
      rw [decide_eq_true_eq]
      intro hmem
      dsimp only at hmem
      have hmem2 := List.take_subset _ _ hmem
      rw [List.mem_map] at hmem2
      obtain ⟨p, hpcE, hpid⟩ := hmem2
      rw [List.mem_filter] at hpcE
      have hpb : p ∈ builds := (hperm.mem_iff).mp hpcE.1
      have hpb2 : (id, p.2) ∈ builds := by
        rw [← hpid]
        simpa using hpb
      have := keys_nodup_val_eq builds hnd id p.2 (.Running L) hpb2 (get_build_mem builds id _ h)
      rw [this] at hpcE
      simp [BuildStatus.is_complete] at hpcE
    · exact h
  · simp only [cleanup_old_builds]
    split
    case isTrue hgt =>
      rw [List.countP_filter, ← List.Perm.countP_eq _ hperm]
      have hflip : List.countP
            (fun p => p.2.is_complete &&
              decide (p.1 ∉ ((iter.filter fun p => p.2.is_complete).map Prod.fst).take
                (((iter.filter fun p => p.2.is_complete).map Prod.fst).length - n))) iter
          = List.countP
            (fun p => decide (p.1 ∉ ((iter.filter fun p => p.2.is_complete).map Prod.fst).take
                (((iter.filter fun p => p.2.is_complete).map Prod.fst).length - n)) &&
              p.2.is_complete) iter := by
        apply List.countP_congr
        intro x _
        simp [Bool.and_comm]
      rw [hflip, ← List.countP_filter, List.countP_eq_length_filter]
      have heq := filter_not_mem_take Prod.fst (iter.filter fun p => p.2.is_complete)
        ((((iter.filter fun p => p.2.is_complete)).map Prod.fst).length - n) hndcE
      rw [heq, List.length_drop]
      simp only [List.length_map] at *
      omega
    case isFalse hle =>
      rw [← List.Perm.countP_eq _ hperm, List.countP_eq_length_filter]
      rw [List.length_map] at hle
      omega

theorem c4_reclaim_amended_witness :
    get_build (cleanup_old_builds
        [("r", BuildStatus.Running ["l"]), ("s", BuildStatus.Success [] [])]
        [("r", BuildStatus.Running ["l"]), ("s", BuildStatus.Success [] [])] 0) "r"
      = some (BuildStatus.Running ["l"])
    ∧ List.countP (fun p => p.2.is_complete)
        (cleanup_old_builds
          [("r", BuildStatus.Running ["l"]), ("s", BuildStatus.Success [] [])]
          [("r", BuildStatus.Running ["l"]), ("s", BuildStatus.Success [] [])] 0) ≤ 0 :=
  ⟨(c4_reclaim_amended
      [("r", BuildStatus.Running ["l"]), ("s", BuildStatus.Success [] [])]
      [("r", BuildStatus.Running ["l"]), ("s", BuildStatus.Success [] [])] 0
      (List.Perm.refl _) (by simp)).1 "r" ["l"] rfl,
   (c4_reclaim_amended
      [("r", BuildStatus.Running ["l"]), ("s", BuildStatus.Success [] [])]
      [("r", BuildStatus.Running ["l"]), ("s", BuildStatus.Success [] [])] 0
      (List.Perm.refl _) (by simp)).2⟩

/-! ### The line-streaming process runner (`run_xcodebuild` in
`src/xcode/xcodebuild.rs`)

The `tokio::select!` loop reads the two piped streams.  Each stream is a
sequence of read results (`next_line()` outcomes): a line, end-of-stream
(`Ok(None)`), or a read error.  The select arm chosen at each iteration is
scheduler-dependent and is passed as an explicit schedule of booleans
(`true` = the stdout arm fires, `false` = the stderr arm).  The loop `break`s
— on either end-of-stream *or a read error* — only in the stdout arm; the
stderr arm never breaks.  After the loop the child is waited on and the exit
status is taken from the wait result alone. -/

/-- One `next_line()` outcome on a stream. -/
inductive ReadEv where
  | lineEv (s : String)
  | eofEv
  | errEv
  deriving DecidableEq, Repr

/-- The mutable state of the drain loop: the accumulated `logs`, the parsed
`build_dir`, and the lines handed to the `on_line` sink in order. -/
structure DrainState where
  logs : List String
  build_dir : Option String
  sent : List String
  deriving DecidableEq, Repr

/-- `line.split("BUILD_DIR = ").nth(1)`, trimmed. -/
def parseBuildDir (line : String) : Option String :=
  ((line.splitOn "BUILD_DIR = ")[1]?).map String.trim

/-- The stdout arm's line handling: `BUILD_DIR` sniffing, then
`on_line(line)` and `logs.push(line)`. -/
def stdoutLine (st : DrainState) (l : String) : DrainState :=
  let bd := if containsStr l "BUILD_DIR = " then
      match parseBuildDir l with
      | some d => some d
      | none => st.build_dir
    else st.build_dir
  { logs := st.logs ++ [l], build_dir := bd, sent := st.sent ++ [l] }

/-- The stderr arm's line handling: `on_line(line)` and `logs.push(line)`. -/
def stderrLine (st : DrainState) (l : String) : DrainState :=
  { st with logs := st.logs ++ [l], sent := st.sent ++ [l] }

/-- The `loop { tokio::select! { ... } }` of `run_xcodebuild`: the schedule
says which arm fires at each iteration; a `true` step with nothing pending on
stdout (or a `false` step with nothing pending on stderr) consumes nothing.
Only the stdout arm's end-of-stream and error outcomes `break`. -/
def drainLoop : List Bool → List ReadEv → List ReadEv → DrainState → DrainState
  | [], _, _, st => st
  | true :: bs, [], errs, st => drainLoop bs [] errs st
  | true :: bs, .lineEv l :: outs, errs, st => drainLoop bs outs errs (stdoutLine st l)
  | true :: _, .eofEv :: _, _, st => st
  | true :: _, .errEv :: _, _, st => st
  | false :: bs, outs, [], st => drainLoop bs outs [] st
  | false :: bs, outs, .lineEv l :: errs, st => drainLoop bs outs errs (stderrLine st l)
  | false :: bs, outs, .eofEv :: errs, st => drainLoop bs outs errs st
  | false :: bs, outs, .errEv :: errs, st => drainLoop bs outs errs st

/-- The child's exit status as `wait()` reports it: `success()` and
`code()` (which is `None` when killed by a signal). -/
structure ProcStatus where
  success : Bool
  code : Option Int
  deriving DecidableEq, Repr

/-- `run_xcodebuild` in `src/xcode/xcodebuild.rs`: spawn, drain both streams
under the given schedule, wait, and assemble the `BuildOutput` with
`exit_code = status.code().unwrap_or(-1)`. -/
def run_xcodebuild (sched : List Bool) (outs errs : List ReadEv)
    (spawn : Except String Unit) (wait : Except String ProcStatus) :
    Except XcbridgeError BuildOutput :=
  match spawn with
  | .error e => .error (.CommandFailed ("Failed to spawn xcodebuild: " ++ e))
  | .ok _ =>
    let st := drainLoop sched outs errs ⟨[], none, []⟩
    match wait with
    | .error e => .error (.CommandFailed ("Failed to wait for xcodebuild: " ++ e))
    | .ok status => .ok ⟨status.success, status.code.getD (-1), st.logs, st.build_dir⟩

/-- **C9 counterexample.** The stdout stream errors mid-read while a stderr
line is still pending and the scheduler would next serve stderr; the stdout
error `break`s the whole select loop, so the pending stderr line `"late"` is
never drained (`logs = []`), contradicting the claim that only the erroring
stream's drain stops while the other continues.  (The exit status, here
failure with code 1, is still reflected.) -/
theorem c9_stdout_error_stops_both_drains :
    run_xcodebuild [true, false] [ReadEv.errEv] [ReadEv.lineEv "late"]
        (.ok ()) (.ok ⟨false, some 1⟩)
      = .ok ⟨false, 1, [], none⟩ := by
  rfl

/-- **C9 (amended).** A *stderr* read error never stops the loop: the next
scheduled iteration proceeds with both streams, so stdout keeps being
drained.  A *stdout* read error stops the entire drain loop at once — the
stderr stream is no longer drained either.  In both cases the overall result
still reflects the process's real exit status once it terminates: the success
flag and exit code of the returned output come from `wait()` alone,
independent of how the streams behaved. -/
theorem c9_stream_error_behavior (sched : List Bool) (outs errs : List ReadEv)
    (status : ProcStatus) :
    (run_xcodebuild sched outs errs (.ok ()) (.ok status)
      = .ok ⟨status.success, status.code.getD (-1),
             (drainLoop sched outs errs ⟨[], none, []⟩).logs,
             (drainLoop sched outs errs ⟨[], none, []⟩).build_dir⟩)
    ∧ (∀ (bs : List Bool) (st : DrainState),
        drainLoop (false :: bs) outs (ReadEv.errEv :: errs) st
          = drainLoop bs outs errs st)
    ∧ (∀ (bs : List Bool) (outs2 errs2 : List ReadEv) (st : DrainState),
        drainLoop (true :: bs) (ReadEv.errEv :: outs2) errs2 st = st) := by
  refine ⟨rfl, ?_, ?_⟩
  · intro bs st
    rfl
  · intro bs outs2 errs2 st
    rfl

end Xcbridge
